import Mathlib

/-!
Verification of the compression request pipeline and history/stats bookkeeping
of the online-file-editor backend (`scripts/start-prod.js`, Express server part).

The server code is embedded shallowly: request handlers become pure functions
over an explicit `ServerState` (uploads directory, history records, user
counters).  The external `sharp` imaging library is kept opaque as a `Codec`
structure (its `metadata`, `toBuffer` and `toFile` entry points); everything
the repository itself computes (parameter resolution, filename construction,
ratio/savings arithmetic, persistence, validation, deletion) is translated
directly from the source.

JavaScript numbers are modelled by exact integer/rational arithmetic.  The
fractional computations of the server (`toFixed(2)`, `formatFileSize`, the
png level, resize scaling) are all of the form `floor(num/den + adjust)` and
are embedded as integer floor divisions (`Int.fdiv`) of the cross-multiplied
operands, each with its derivation recorded; specification-level lemmas
connect them back to `round`/`Int.floor` over `ℚ`.
-/

/-! ## Models of the JavaScript primitives used by the server -/

/-- Value of a non-empty decimal digit prefix; `none` when there is no digit. -/
def digitsVal (cs : List Char) : Option Nat :=
  let ds := cs.takeWhile Char.isDigit
  if ds.isEmpty then none
  else some (ds.foldl (fun acc c => acc * 10 + (c.toNat - '0'.toNat)) 0)

/-- Model of JavaScript `parseInt(s)` (decimal path): skip leading whitespace,
optional sign, longest digit prefix; `none` models `NaN`.  The automatic
hexadecimal `0x` detection of `parseInt` is not modelled; no claim depends on
hexadecimal inputs. -/
def jsParseInt (s : String) : Option Int :=
  let t := s.toList.dropWhile (fun c => c == ' ' || c == '\t' || c == '\n' || c == '\r')
  match t with
  | '-' :: rest => (digitsVal rest).map (fun n => -(n : Int))
  | '+' :: rest => (digitsVal rest).map (fun n => (n : Int))
  | _ => (digitsVal t).map (fun n => (n : Int))

/-- Model of the JavaScript idiom `v || d` applied to a parse result: both
`NaN` (`none`) and `0` are falsy and are replaced by the default `d`. -/
def jsOrDefault (d : Int) : Option Int → Int
  | none => d
  | some n => if n = 0 then d else n

/-- ASCII lowercasing of one character (model of `toLowerCase` on the ASCII
strings the server compares; format names are ASCII). -/
def lowerChar (c : Char) : Char :=
  if 65 ≤ c.toNat ∧ c.toNat ≤ 90 then Char.ofNat (c.toNat + 32) else c

/-- Model of JavaScript `s.toLowerCase()` for ASCII strings. -/
def lowerStr (s : String) : String := String.mk (s.toList.map lowerChar)

/-- The integer `n` chosen by `(num/den).toFixed(2)` for `den > 0`:
ECMA-262 picks the integer `n` with `n/100` nearest to the value, ties toward
the larger `n`, i.e. `n = floor(value * 100 + 1/2)`.  For `value = num/den`
this is `floor((num*200 + den) / (den*2))`, an integer floor division. -/
def toFixed2Of (num den : Int) : Int := Int.fdiv (num * 200 + den) (den * 2)

/-- Two-digit zero padding for the fraction part of `toFixed(2)`. -/
def pad2 (n : Nat) : String := if n < 10 then "0" ++ toString n else toString n

/-- The decimal string `(v).toFixed(2)` renders, given the integer `n = v*100`
rounded (the output of `toFixed2Of`). -/
def fixed2Render (n : Int) : String :=
  if n < 0 then "-" ++ toString (n.natAbs / 100) ++ "." ++ pad2 (n.natAbs % 100)
  else toString (n.toNat / 100) ++ "." ++ pad2 (n.toNat % 100)

/-- Rendering of `parseFloat((v).toFixed(2))` back to a string for `v ≥ 0`,
where `n` is `v * 100` rounded: JavaScript number-to-string notation drops
trailing fraction zeros. -/
def stripZeros2 (n : Nat) : String :=
  if n % 100 = 0 then toString (n / 100)
  else if n % 10 = 0 then toString (n / 100) ++ "." ++ toString (n % 100 / 10)
  else toString (n / 100) ++ "." ++ pad2 (n % 100)

/-- `formatFileSize` from `start-prod.js` lines 220-226.  The size-class index
`Math.floor(Math.log(bytes)/Math.log(1024))` is modelled by the equivalent
power-of-1024 thresholds.  For negative input (the `savings` argument when the
compressed output is larger than the original) `Math.log` yields `NaN`, the
index and the scaled value are then `NaN`, and `sizes[NaN]` is `undefined`,
so the function returns the literal string `"NaN undefined"`.  Beyond the
last entry of `sizes = ['Bytes','KB','MB']` the suffix is again `undefined`
(unreachable below the 10MB upload cap but kept for totality). -/
def formatFileSize (bytes : Int) : String :=
  if bytes = 0 then "0 Bytes"
  else if bytes < 0 then "NaN undefined"
  else
    let b : Int := bytes
    if b < 1024 then stripZeros2 (toFixed2Of b 1).toNat ++ " Bytes"
    else if b < 1024 * 1024 then stripZeros2 (toFixed2Of b 1024).toNat ++ " KB"
    else if b < 1024 * 1024 * 1024 then stripZeros2 (toFixed2Of b (1024 * 1024)).toNat ++ " MB"
    else stripZeros2 (toFixed2Of b (1024 * 1024 * 1024)).toNat ++ " undefined"

/-! ## Parameter resolution (`start-prod.js` lines 393-405) -/

/-- The raw quality after the destructuring default: an absent field defaults
to the number `80` (which `parseInt` coerces back to `80`); a present field is
the raw string run through `parseInt`. -/
def parsedQuality (quality : Option String) : Option Int :=
  match quality with
  | none => some 80
  | some s => jsParseInt s

/-- Line 401: `Math.min(100, Math.max(10, parseInt(quality) || 80))`. -/
def resolveQuality (quality : Option String) : Int :=
  min 100 (max 10 (jsOrDefault 80 (parsedQuality quality)))

/-- Quality resolution as claim C3 states it: parse as integer, clamp into
`[10,100]`, and resolve to `80` exactly when the input is absent or does not
parse as a number. -/
def claimResolveQuality (quality : Option String) : Int :=
  match quality.bind jsParseInt with
  | none => 80
  | some n => min 100 (max 10 n)

/-- Line 402. -/
def validFormats : List String := ["jpeg", "jpg", "png", "webp", "avif"]

/-- Line 403: `validFormats.includes(format.toLowerCase()) ? format.toLowerCase() : 'jpeg'`
with the destructuring default `format = 'jpeg'`. -/
def resolveFormat (format : Option String) : String :=
  if validFormats.contains (lowerStr (format.getD "jpeg")) then lowerStr (format.getD "jpeg")
  else "jpeg"

/-- Line 405: the stored filename extension, `outputFormat === 'jpg' ? 'jpeg' : outputFormat`. -/
def extOf (outputFormat : String) : String :=
  if outputFormat = "jpg" then "jpeg" else outputFormat

/-- Line 437: `Math.floor(9 - (qualityValue / 11.11))` before clamping.
With `11.11 = 1111/100` this is `floor((9999 - 100*q) / 1111)`. -/
def pngLevelRaw (q : Int) : Int := Int.fdiv (9999 - 100 * q) 1111

/-- Line 440: `Math.max(0, Math.min(9, pngQuality))`. -/
def pngLevel (q : Int) : Int := max 0 (min 9 (pngLevelRaw q))

/-- The per-format sharp options chosen by the `switch (outputFormat)` at
lines 426-462.  The unreachable `default` branch uses plain jpeg options
without `mozjpeg`. -/
inductive EncodeOpts where
  | jpeg (quality : Int) (mozjpeg : Bool)
  | png (compressionLevel : Int)
  | webp (quality : Int)
  | avif (quality : Int)
deriving DecidableEq

def encodeOptsFor (outputFormat : String) (q : Int) : EncodeOpts :=
  if outputFormat = "jpeg" || outputFormat = "jpg" then EncodeOpts.jpeg q true
  else if outputFormat = "png" then EncodeOpts.png (pngLevel q)
  else if outputFormat = "webp" then EncodeOpts.webp q
  else if outputFormat = "avif" then EncodeOpts.avif q
  else EncodeOpts.jpeg q false

/-! ## Resize options (`start-prod.js` lines 412-423) -/

/-- The object passed to `sharpInstance.resize`.  A target field is `none`
when the raw value was absent (`null` in the source), `some none` when
`parseInt` produced `NaN`, and `some (some n)` for a parsed integer. -/
structure ResizeOptions where
  width : Option (Option Int)
  height : Option (Option Int)
  withoutEnlargement : Bool
  fit : String
deriving DecidableEq

/-- Lines 413-418: `width: width ? parseInt(width) : null`, likewise for
height, `withoutEnlargement: true`, `fit: maintainAspectRatio === 'true' ?
'inside' : 'fill'` (with the destructuring default `maintainAspectRatio = 'true'`). -/
def mkResizeOptions (width height maintainAspectRatio : Option String) : ResizeOptions :=
  { width := width.map jsParseInt
    height := height.map jsParseInt
    withoutEnlargement := true
    fit := if maintainAspectRatio.getD "true" = "true" then "inside" else "fill" }

/-- Validation of one resize target: absent is fine; `NaN` or a non-positive
number makes the codec throw. -/
def targetVal : Option (Option Int) → Except Unit (Option Int)
  | none => Except.ok none
  | some none => Except.error ()
  | some (some n) => if n ≤ 0 then Except.error () else Except.ok (some n)

/-- `Math.round(v * n/d)` for `d > 0`, as an integer floor division:
`floor(v*n/d + 1/2) = floor((v*n*2 + d) / (d*2))`. -/
def roundScaled (v : Nat) (n d : Int) : Nat :=
  (Int.fdiv ((v : Int) * n * 2 + d) (d * 2)).toNat

/-- The scale factor (as a fraction `n/d`) selected by the `'inside'` fit:
the smaller of the per-axis target/source ratios (compared by
cross-multiplication), capped at 1 when `withoutEnlargement` is set. -/
def insideScale (ow oh : Nat) (wv hv : Option Int) (withoutEnlargement : Bool) : Int × Int :=
  let s0 : Int × Int :=
    match wv, hv with
    | some tw, some th =>
      if tw * (oh : Int) ≤ th * (ow : Int) then (tw, (ow : Int)) else (th, (oh : Int))
    | some tw, none => (tw, (ow : Int))
    | none, some th => (th, (oh : Int))
    | none, none => (1, 1)
  if withoutEnlargement then (if s0.1 ≤ s0.2 then s0 else (1, 1)) else s0

/-- Modelled from the spec: the codec adapter's resize dimension semantics,
which live in the external `sharp` library and not in this repository.  Per
the spec, `fit: 'inside'` scales to fit within the requested bounds
preserving the aspect ratio (scale factor = the smaller of the per-axis
target/source ratios, compared here by cross-multiplication),
`withoutEnlargement` caps the scale factor at 1 (never upscale), and
`fit: 'fill'` forces the exact requested dimensions (the enlargement guard of
the fill mode is not modelled; no claim concerns it).  Output dimensions are
rounded to the nearest integer and are at least 1.  `none` models a codec
error on an invalid target. -/
def computeDims (ow oh : Nat) (o : ResizeOptions) : Option (Nat × Nat) :=
  match targetVal o.width, targetVal o.height with
  | Except.ok wv, Except.ok hv =>
    if o.fit = "inside" then
      some (max 1 (roundScaled ow (insideScale ow oh wv hv o.withoutEnlargement).1
              (insideScale ow oh wv hv o.withoutEnlargement).2),
            max 1 (roundScaled oh (insideScale ow oh wv hv o.withoutEnlargement).1
              (insideScale ow oh wv hv o.withoutEnlargement).2))
    else
      some ((wv.map Int.toNat).getD ow, (hv.map Int.toNat).getD oh)
  | _, _ => none

example : jsParseInt "0" = some 0 := by decide
example : jsParseInt "abc" = none := by decide
example : jsParseInt "-5" = some (-5) := by decide
example : resolveQuality (some "0") = 80 := by decide
example : resolveQuality (some "150") = 100 := by decide
example : resolveQuality none = 80 := by decide
example : claimResolveQuality (some "0") = 10 := by decide
example : resolveFormat (some "JPG") = "jpg" := by decide
example : resolveFormat (some "bmp") = "jpeg" := by decide
example : extOf "jpg" = "jpeg" := by decide
example : toFixed2Of (-50) 1 = -5000 := by decide
example : fixed2Render (toFixed2Of (-100) 2) = "-50.00" := by decide
example : fixed2Render (toFixed2Of 100 3) = "33.33" := by decide
example : formatFileSize (-1) = "NaN undefined" := by decide
example : formatFileSize 1536 = "1.5 KB" := by decide
example : formatFileSize 500 = "500 Bytes" := by decide
example : computeDims 100 100 (mkResizeOptions (some "5000") none none) = some (100, 100) := by decide
example : computeDims 100 100 (mkResizeOptions (some "50") none none) = some (50, 50) := by decide
example : computeDims 200 100 (mkResizeOptions (some "50") (some "80") none) = some (50, 25) := by decide
example : computeDims 200 100 (mkResizeOptions (some "50") (some "80") (some "false")) = some (50, 80) := by decide
example : pngLevel 80 = 1 := by decide

/-! ## Data model (schemas at `start-prod.js` lines 62-124, state of the server) -/

/-- `compressionStats` sub-document of the `User` schema (lines 88-92).
`totalSizeSaved` is an integer number of bytes and may go negative, since the
`savings` increment is negative when compression enlarges the file. -/
structure UserStats where
  totalCompressions : Nat
  totalSizeSaved : Int
  lastCompression : Option Nat
deriving DecidableEq

/-- One `CompressionHistory` document (lines 99-121).  `compressionRatio` is
stored in hundredths (the integer chosen by `toFixed(2)`): the JavaScript
number obtained by `parseFloat(ratio.toFixed(2))` is this value divided by
100; the scaling keeps the state decidable while determining the stored
number exactly. -/
structure CompressionRecord where
  recordId : Nat
  userId : Nat
  originalFilename : String
  compressedFilename : String
  originalSize : Nat
  compressedSize : Nat
  compressionRatioHundredths : Int
  format : String
  quality : Int
  dimsOriginal : Nat × Nat
  dimsCompressed : Nat × Nat
  downloadUrl : String
  createdAt : Nat
deriving DecidableEq

/-- The persistent state touched by the handlers: the uploads directory
(filename to file bytes), the `CompressionHistory` collection, and the
`User` collection (user id to its `compressionStats`). -/
structure ServerState where
  uploads : List (String × List Nat)
  records : List CompressionRecord
  users : List (Nat × UserStats)
deriving DecidableEq

-- Equality of handler outcomes is decidable (used to evaluate the model at
-- concrete inputs).
deriving instance DecidableEq for Except

/-- The multer in-memory upload (`req.file`): original name, buffer, size. -/
structure ImgFile where
  originalname : String
  buffer : List Nat
  size : Nat
deriving DecidableEq

/-- A request to `POST /api/compress`: the uploaded file, the raw multipart
body fields (strings; `none` when absent), and the optional identity attached
by the `optionalAuth` middleware (`req.user.userId`). -/
structure CompressRequest where
  file : Option ImgFile
  quality : Option String
  format : Option String
  width : Option String
  height : Option String
  maintainAspectRatio : Option String
  user : Option Nat
deriving DecidableEq

/-- A JSON scalar as it appears in the response body: JavaScript distinguishes
numbers from strings, and `toFixed` returns a string. -/
inductive JsonVal where
  | num (hundredths : Int)
  | str (s : String)
deriving DecidableEq

/-- Whether a JSON scalar is a number. -/
def JsonVal.isNum : JsonVal → Bool
  | JsonVal.num _ => true
  | JsonVal.str _ => false

/-- The success response of `POST /api/compress` (lines 500-517). -/
structure CompressResponse where
  fileName : String
  originalSize : Nat
  compressedSize : Nat
  compressionRatio : JsonVal
  savings : String
  downloadUrl : String
  format : String
  dimsOriginal : Nat × Nat
  dimsCompressed : Nat × Nat
  recordId : Option Nat
deriving DecidableEq

/-- Outcome of the compress handler: 400 for a missing file, 500 for any
codec failure (the catch-all at lines 519-525), or the success payload. -/
inductive CompressOutcome where
  | badRequest (error : String)
  | serverError (error : String)
  | ok (r : CompressResponse)
deriving DecidableEq

/-- The opaque `sharp` codec (spec section 1 excludes it as an external
collaborator).  `metadataDims` models `sharp(buffer).metadata()`;
`encode` models the `.resize(...)` and format-specific `.toBuffer()` chain
(lines 408-462); `fileWrite` models `sharp(compressedBuffer).toFile(path)`
at line 469, which decodes `compressedBuffer` and encodes it again according
to the extension of the target path at library-default settings — it is a
second codec invocation, not a byte copy.  `none` models a thrown error. -/
structure Codec where
  metadataDims : List Nat → Option (Nat × Nat)
  encode : List Nat → Option ResizeOptions → EncodeOpts → Option (List Nat)
  fileWrite : List Nat → String → Option (List Nat)

/-- Lines 412-423: the resize options are built only when a width or a height
field is present in the body. -/
def resizeOptsOf (req : CompressRequest) : Option ResizeOptions :=
  if req.width.isSome || req.height.isSome then
    some (mkResizeOptions req.width req.height req.maintainAspectRatio)
  else none

/-- Metadata and output dimensions of the request (lines 409-423): source
dimensions from `metadata()`, and the post-resize dimensions re-read from the
resized instance when a resize was requested. -/
def dimsStage (c : Codec) (req : CompressRequest) (file : ImgFile) :
    Option ((Nat × Nat) × (Nat × Nat)) :=
  match c.metadataDims file.buffer with
  | none => none
  | some od =>
    match resizeOptsOf req with
    | none => some (od, od)
    | some o => (computeDims od.1 od.2 o).map (fun cd => (od, cd))

/-- The `.toBuffer()` encode call with the options the `switch` selects. -/
def encodeCall (c : Codec) (req : CompressRequest) (file : ImgFile) : Option (List Nat) :=
  c.encode file.buffer (resizeOptsOf req)
    (encodeOptsFor (resolveFormat req.format) (resolveQuality req.quality))

/-- The stored filename (line 405): `uuidv4() + '.' + (jpg ? jpeg : format)`.
The random uuid is the `fresh` parameter. -/
def outFileName (fresh : String) (req : CompressRequest) : String :=
  fresh ++ "." ++ extOf (resolveFormat req.format)

/-- Line 466, in hundredths: `((originalSize - compressedSize) / originalSize
* 100).toFixed(2)` is `toFixed2Of` of the fraction `(o-c)*100 / o`.  (For
`o = 0` the model yields `0` where JavaScript would render `NaN`; the server
cannot reach that case, since an empty buffer fails `metadata()`.) -/
def ratioFixed2 (o c : Nat) : Int := toFixed2Of (((o : Int) - (c : Int)) * 100) (o : Int)

/-- Line 467. -/
def savingsInt (o c : Nat) : Int := (o : Int) - (c : Int)

/-- The `$inc`/`$set` update of `User.findByIdAndUpdate` (lines 491-497):
the matching user's counters are incremented, every other user is untouched,
and a missing id is a silent no-op (mongoose semantics without `upsert`). -/
def applyUserInc (uid : Nat) (sav : Int) (now : Nat) (users : List (Nat × UserStats)) :
    List (Nat × UserStats) :=
  users.map (fun p =>
    if p.1 = uid then
      (p.1, { totalCompressions := p.2.totalCompressions + 1
              totalSizeSaved := p.2.totalSizeSaved + sav
              lastCompression := some now })
    else p)

/-- The `CompressionHistory` document created at lines 473-487. -/
def mkRecord (rid uid now : Nat) (fresh : String) (req : CompressRequest) (file : ImgFile)
    (odims cdims : Nat × Nat) (compressedSize : Nat) : CompressionRecord :=
  { recordId := rid
    userId := uid
    originalFilename := file.originalname
    compressedFilename := outFileName fresh req
    originalSize := file.size
    compressedSize := compressedSize
    compressionRatioHundredths := ratioFixed2 file.size compressedSize
    format := resolveFormat req.format
    quality := resolveQuality req.quality
    dimsOriginal := odims
    dimsCompressed := cdims
    downloadUrl := "/uploads/" ++ outFileName fresh req
    createdAt := now }

/-- The success JSON of lines 500-517.  `compressionRatio` is the raw
`toFixed(2)` string (a JSON string, not a number); `savings` is
`formatFileSize(savings)`. -/
def mkResponse (fresh : String) (req : CompressRequest) (file : ImgFile)
    (odims cdims : Nat × Nat) (compressedSize : Nat) (recId : Option Nat) : CompressResponse :=
  { fileName := outFileName fresh req
    originalSize := file.size
    compressedSize := compressedSize
    compressionRatio := JsonVal.str (fixed2Render (ratioFixed2 file.size compressedSize))
    savings := formatFileSize (savingsInt file.size compressedSize)
    downloadUrl := "/uploads/" ++ outFileName fresh req
    format := resolveFormat req.format
    dimsOriginal := odims
    dimsCompressed := cdims
    recordId := recId }

/-- The `POST /api/compress` handler (lines 387-526).  `fresh` is the uuid,
`rid` the database id of a record to be created, `now` the clock.  Every
failing stage is caught and the state is returned unchanged; the artifact
write (line 469, `sharp(compressedBuffer).toFile(outputPath)`) happens after
encoding and before any persistence, and stores the bytes produced by that
second codec invocation, not `compressedBuffer` itself. -/
def compress (c : Codec) (fresh : String) (rid now : Nat) (st : ServerState)
    (req : CompressRequest) : CompressOutcome × ServerState :=
  match req.file with
  | none => (CompressOutcome.badRequest "No image file provided", st)
  | some file =>
    match dimsStage c req file with
    | none => (CompressOutcome.serverError "Compression failed", st)
    | some (odims, cdims) =>
      match encodeCall c req file with
      | none => (CompressOutcome.serverError "Compression failed", st)
      | some compressedBuffer =>
        match c.fileWrite compressedBuffer (extOf (resolveFormat req.format)) with
        | none => (CompressOutcome.serverError "Compression failed", st)
        | some stored =>
          match req.user with
          | none =>
            (CompressOutcome.ok (mkResponse fresh req file odims cdims compressedBuffer.length none),
             { st with uploads := (outFileName fresh req, stored) :: st.uploads })
          | some uid =>
            (CompressOutcome.ok (mkResponse fresh req file odims cdims compressedBuffer.length (some rid)),
             { st with
                uploads := (outFileName fresh req, stored) :: st.uploads
                records := mkRecord rid uid now fresh req file odims cdims compressedBuffer.length :: st.records
                users := applyUserInc uid (savingsInt file.size compressedBuffer.length) now st.users })

/-! ## History listing (`start-prod.js` lines 529-575) -/

/-- Line 537. -/
def validSortFields : List String := ["createdAt", "originalSize", "compressedSize", "compressionRatio"]

/-- Line 533: `req.query.sortBy || 'createdAt'` (the empty string is falsy). -/
def resolvedSortBy (sortBy : Option String) : String :=
  match sortBy with
  | none => "createdAt"
  | some s => if s = "" then "createdAt" else s

/-- The sort key of a record for a given field, scaled to a common integer
domain (`compressionRatio` is already stored in hundredths; scaling the other
fields by 100 preserves their order). -/
def sortKey (sortBy : String) (r : CompressionRecord) : Int :=
  if sortBy = "originalSize" then (r.originalSize : Int) * 100
  else if sortBy = "compressedSize" then (r.compressedSize : Int) * 100
  else if sortBy = "compressionRatio" then r.compressionRatioHundredths
  else (r.createdAt : Int) * 100

/-- Insertion of one record into a list sorted by `le`. -/
def insertSorted (le : CompressionRecord → CompressionRecord → Bool) :
    CompressionRecord → List CompressionRecord → List CompressionRecord
  | x, [] => [x]
  | x, y :: ys => if le x y then x :: y :: ys else y :: insertSorted le x ys

/-- The `.sort(sortQuery)` step: insertion sort by the requested field and
direction (`order = 1` ascending, `-1` descending). -/
def sortRecords (sortBy : String) (order : Int) (l : List CompressionRecord) :
    List CompressionRecord :=
  l.foldr (insertSorted (fun a b =>
    if order = 1 then sortKey sortBy a ≤ sortKey sortBy b
    else sortKey sortBy b ≤ sortKey sortBy a)) []

/-- `Math.ceil(total / limit)` at line 566, for `limit ≥ 1` (guaranteed by the
validation that precedes it); `0` for a non-positive limit to stay total. -/
def ceilPages (total : Nat) (limit : Int) : Nat :=
  if limit ≤ 0 then 0 else (total + limit.toNat - 1) / limit.toNat

/-- The `pagination` object of the history response (lines 562-569). -/
structure Pagination where
  page : Int
  limit : Int
  total : Nat
  pages : Nat
  sortBy : String
  sortOrder : String
deriving DecidableEq

/-- The success payload of `GET /api/compression/history`. -/
structure HistoryResponse where
  history : List CompressionRecord
  pagination : Pagination
deriving DecidableEq

/-- The `GET /api/compression/history` handler (lines 529-575), for the
authenticated user `uid`.  `parseInt(req.query.page) || 1` (and `|| 10` for
the limit) turn an absent, unparsable, or zero value into the default, so
only a negative parsed value can reach the `page < 1 || limit < 1` check. -/
def listHistory (st : ServerState) (uid : Nat)
    (pageQ limitQ sortByQ sortOrderQ : Option String) :
    Except (Nat × String) HistoryResponse :=
  let page : Int := jsOrDefault 1 (pageQ.bind jsParseInt)
  let limit : Int := jsOrDefault 10 (limitQ.bind jsParseInt)
  let sortBy : String := resolvedSortBy sortByQ
  let sortOrder : Int := if sortOrderQ = some "asc" then 1 else -1
  if ¬ validSortFields.contains sortBy then Except.error (400, "Invalid sortBy field")
  else if page < 1 ∨ limit < 1 then
    Except.error (400, "Page and limit must be positive integers")
  else
    let mine := st.records.filter (fun r => r.userId == uid)
    let sorted := sortRecords sortBy sortOrder mine
    let skip := ((page - 1) * limit).toNat
    Except.ok
      { history := (sorted.drop skip).take limit.toNat
        pagination :=
          { page := page
            limit := limit
            total := mine.length
            pages := ceilPages mine.length limit
            sortBy := sortBy
            sortOrder := if sortOrder = 1 then "asc" else "desc" } }

/-! ## Record deletion (`start-prod.js` lines 620-646) -/

/-- `DELETE /api/compression/history/:recordId` for the authenticated user
`uid`: `findOne({_id, userId})` (scoped to the requester), 404 when absent;
otherwise `unlinkSync` of the artifact guarded by `existsSync` (a missing
file is skipped silently), then `findByIdAndDelete(recordId)`. -/
def deleteRecord (st : ServerState) (uid rid : Nat) :
    Except (Nat × String) Unit × ServerState :=
  match st.records.find? (fun r => r.recordId == rid && r.userId == uid) with
  | none => (Except.error (404, "Record not found"), st)
  | some record =>
    let uploads1 :=
      if st.uploads.any (fun p => p.1 == record.compressedFilename) then
        st.uploads.filter (fun p => p.1 != record.compressedFilename)
      else st.uploads
    (Except.ok (),
     { st with
        uploads := uploads1
        records := st.records.filter (fun r => r.recordId != rid) })

/-! ## Cleanup by filename (`start-prod.js` lines 711-730) -/

/-- Removal of the first list entry satisfying the test (mongoose
`findOneAndDelete` deletes at most one matching document). -/
def eraseFirstP (p : CompressionRecord → Bool) : List CompressionRecord → List CompressionRecord
  | [] => []
  | x :: xs => if p x then xs else x :: eraseFirstP p xs

/-- `DELETE /api/cleanup/:filename` for the authenticated user `uid`:
`findOneAndDelete({compressedFilename, userId})` runs first and
unconditionally (the record deletion is scoped to the requester); then the
artifact path is checked — the file is unlinked by filename alone, with no
ownership check, and the response is 404 exactly when no file with that name
exists on disk, regardless of whether a record was deleted. -/
def cleanupByFilename (st : ServerState) (uid : Nat) (filename : String) :
    Except (Nat × String) Unit × ServerState :=
  let records1 := eraseFirstP (fun r => r.compressedFilename == filename && r.userId == uid) st.records
  if st.uploads.any (fun p => p.1 == filename) then
    (Except.ok (),
     { st with records := records1, uploads := st.uploads.filter (fun p => p.1 != filename) })
  else
    (Except.error (404, "File not found"), { st with records := records1 })

/-! ## Concrete fixtures used by counterexamples and witnesses -/

/-- A concrete codec instance for closed runs of the pipeline: encoding
appends a marker byte, and the `toFile` re-encode appends a different marker
byte — in particular the bytes written to disk differ from the encoded
buffer, as they may under the real library (the `toFile` call re-encodes at
library-default settings, e.g. jpeg quality 80, not at the request's
settings). -/
def cexCodec : Codec :=
  { metadataDims := fun _ => some (4, 4)
    encode := fun buf _ _ => some (buf ++ [1])
    fileWrite := fun buf _ => some (buf ++ [2]) }

/-- A two-byte upload. -/
def cexFile : ImgFile := { originalname := "photo.png", buffer := [0, 0], size := 2 }

/-- Empty server state. -/
def st0 : ServerState := { uploads := [], records := [], users := [] }

/-- An anonymous request with `format=jpg` and no other options. -/
def reqJpg : CompressRequest :=
  { file := some cexFile, quality := none, format := some "jpg"
    width := none, height := none, maintainAspectRatio := none, user := none }

/-- The same request with an authenticated identity attached. -/
def reqJpgAuth : CompressRequest :=
  { file := some cexFile, quality := none, format := some "jpg"
    width := none, height := none, maintainAspectRatio := none, user := some 1 }

/-- A history record of user 1 whose artifact is `a.jpeg`. -/
def recA : CompressionRecord :=
  { recordId := 5, userId := 1, originalFilename := "o.png"
    compressedFilename := "a.jpeg", originalSize := 10, compressedSize := 4
    compressionRatioHundredths := 6000, format := "jpeg", quality := 80
    dimsOriginal := (4, 4), dimsCompressed := (4, 4)
    downloadUrl := "/uploads/a.jpeg", createdAt := 0 }

/-- State holding user 1's record and its artifact on disk. -/
def stW : ServerState := { uploads := [("a.jpeg", [9])], records := [recA], users := [] }

/-- State holding user 1's record but no artifact on disk. -/
def stNoFile : ServerState := { uploads := [], records := [recA], users := [] }

example :
    compress cexCodec "f" 0 0 st0 reqJpg =
      (CompressOutcome.ok
        { fileName := "f.jpeg", originalSize := 2, compressedSize := 3
          compressionRatio := JsonVal.str "-50.00", savings := "NaN undefined"
          downloadUrl := "/uploads/f.jpeg", format := "jpg"
          dimsOriginal := (4, 4), dimsCompressed := (4, 4), recordId := none },
       { uploads := [("f.jpeg", [0, 0, 1, 2])], records := [], users := [] }) := by
  decide

/-! ## Claim C3: quality resolution -/

/-- C3 (corrected): the resolved quality always lies in `[10,100]`; an absent
or unparsable quality resolves to exactly 80 — but so does a quality that
parses to the integer 0, because `parseInt(quality) || 80` treats 0 as falsy
before clamping.  The third conjunct characterises `resolveQuality` for every
input; resolution is a total function and never fails. -/
theorem quality_clamped_zero_default :
    ∀ q : Option String,
      10 ≤ resolveQuality q ∧ resolveQuality q ≤ 100 ∧
      resolveQuality q =
        (match q.bind jsParseInt with
         | none => 80
         | some n => if n = 0 then 80 else min 100 (max 10 n)) := by
  intro q
  match q with
  | none =>
    refine ⟨by decide, by decide, ?_⟩
    simp [resolveQuality, parsedQuality, jsOrDefault]
  | some s =>
    simp only [resolveQuality, parsedQuality, Option.bind_some]
    match h : jsParseInt s with
    | none => exact ⟨by simp [jsOrDefault], by simp [jsOrDefault], by simp [jsOrDefault, h]⟩
    | some n =>
      by_cases hn : n = 0
      · subst hn
        exact ⟨by simp [jsOrDefault], by simp [jsOrDefault], by simp [jsOrDefault, h]⟩
      · refine ⟨?_, ?_, by simp [jsOrDefault, hn, h]⟩
        · simp only [jsOrDefault, if_neg hn]
          omega
        · simp only [jsOrDefault, if_neg hn]
          omega

/-- C3 counterexample: the raw quality string `"0"` parses to the integer 0,
so the claimed parse-and-clamp semantics would resolve it to 10, but the
server resolves it to 80. -/
theorem quality_zero_cex :
    resolveQuality (some "0") = 80 ∧ claimResolveQuality (some "0") = 10 ∧
    resolveQuality (some "0") ≠ claimResolveQuality (some "0") := by
  decide

/-! ## Claim C4: format resolution and reporting -/

/-- The response of the concrete `format=jpg` run of the pipeline. -/
def cexResp : CompressResponse :=
  { fileName := "f.jpeg", originalSize := 2, compressedSize := 3
    compressionRatio := JsonVal.str "-50.00", savings := "NaN undefined"
    downloadUrl := "/uploads/f.jpeg", format := "jpg"
    dimsOriginal := (4, 4), dimsCompressed := (4, 4), recordId := none }

/-- Every format the resolver can produce maps under `extOf` to one of the
four storable extensions. -/
theorem extOf_of_valid (v : String) (h : validFormats.contains v = true) :
    extOf v = "jpeg" ∨ extOf v = "png" ∨ extOf v = "webp" ∨ extOf v = "avif" := by
  have hv : v ∈ validFormats := by simpa using h
  have hv2 : v = "jpeg" ∨ v = "jpg" ∨ v = "png" ∨ v = "webp" ∨ v = "avif" := by
    simpa [validFormats] using hv
  rcases hv2 with rfl | rfl | rfl | rfl | rfl <;> decide

/-- C4 (corrected): an absent or unsupported format resolves to `jpeg`
(case-insensitively); the resolved format is always in the supported set; the
stored filename uses the normalized extension (`jpg` mapped to `jpeg`) — but
the `format` field reported in the response and in the persisted record is
the unnormalized resolved value, so a `jpg` request is reported as `"jpg"`,
not `"jpeg"`. -/
theorem format_resolution_normalization (c : Codec) (fresh : String) (rid now : Nat)
    (st : ServerState) (req : CompressRequest) (f : ImgFile) (od cd : Nat × Nat)
    (buf stored : List Nat)
    (hf : req.file = some f)
    (hd : dimsStage c req f = some (od, cd))
    (he : encodeCall c req f = some buf)
    (hw : c.fileWrite buf (extOf (resolveFormat req.format)) = some stored) :
    (validFormats.contains (lowerStr (req.format.getD "jpeg")) = false →
        resolveFormat req.format = "jpeg") ∧
    validFormats.contains (resolveFormat req.format) = true ∧
    (extOf (resolveFormat req.format) = "jpeg" ∨ extOf (resolveFormat req.format) = "png" ∨
      extOf (resolveFormat req.format) = "webp" ∨ extOf (resolveFormat req.format) = "avif") ∧
    (req.format = some "jpg" →
        resolveFormat req.format = "jpg" ∧ extOf (resolveFormat req.format) = "jpeg") ∧
    (∃ r, (compress c fresh rid now st req).1 = CompressOutcome.ok r ∧
        r.format = resolveFormat req.format ∧
        r.fileName = fresh ++ "." ++ extOf (resolveFormat req.format)) ∧
    (∀ uid, req.user = some uid →
        ∃ rec, (compress c fresh rid now st req).2.records = rec :: st.records ∧
          rec.format = resolveFormat req.format) := by
  have hmem : validFormats.contains (resolveFormat req.format) = true := by
    rw [resolveFormat]
    by_cases hc : validFormats.contains (lowerStr (req.format.getD "jpeg")) = true
    · rw [if_pos hc]; exact hc
    · rw [if_neg hc]; decide
  refine ⟨?_, hmem, extOf_of_valid _ hmem, ?_, ?_, ?_⟩
  · intro hfalse
    have hnc : ¬ (validFormats.contains (lowerStr (req.format.getD "jpeg")) = true) := by
      rw [hfalse]; exact Bool.false_ne_true
    rw [resolveFormat, if_neg hnc]
  · intro hjpg
    rw [hjpg]
    decide
  · cases hu : req.user with
    | none =>
      exact ⟨mkResponse fresh req f od cd buf.length none,
        by simp [compress, hf, hd, he, hw, hu], rfl, rfl⟩
    | some uid =>
      exact ⟨mkResponse fresh req f od cd buf.length (some rid),
        by simp [compress, hf, hd, he, hw, hu], rfl, rfl⟩
  · intro uid hu
    exact ⟨mkRecord rid uid now fresh req f od cd buf.length,
      by simp [compress, hf, hd, he, hw, hu], rfl⟩

/-- C4 witness: the `format=jpg` request resolves to `jpg` with stored
extension `jpeg`, via the theorem at a concrete run. -/
theorem format_resolution_normalization_witness :
    resolveFormat reqJpg.format = "jpg" ∧ extOf (resolveFormat reqJpg.format) = "jpeg" :=
  (format_resolution_normalization cexCodec "f" 0 0 st0 reqJpg cexFile (4, 4) (4, 4)
    [0, 0, 1] [0, 0, 1, 2] rfl rfl rfl rfl).2.2.2.1 rfl

/-- C4 counterexample: a `format=jpg` request stores the artifact as
`f.jpeg` but reports `format: "jpg"` in the success response, so `jpeg` is
not the value reported for storage and output naming. -/
theorem format_reported_jpg_cex :
    (compress cexCodec "f" 0 0 st0 reqJpg).1 = CompressOutcome.ok cexResp ∧
    cexResp.format = "jpg" ∧ cexResp.fileName = "f.jpeg" ∧ ("jpg" : String) ≠ "jpeg" := by
  decide

/-! ## Claim C2: compression ratio and savings reporting -/

/-- The integer-division embedding of `toFixed(2)` agrees with rounding the
exact rational value scaled by 100 (`round` in Mathlib is floor of `x + 1/2`,
matching the tie-toward-larger rule of ECMA `toFixed`). -/
theorem toFixed2Of_eq_round (num den : Int) (h : 0 < den) :
    toFixed2Of num den = round ((num : ℚ) / (den : ℚ) * 100) := by
  rw [round_eq, toFixed2Of, Int.fdiv_eq_ediv _ (by positivity)]
  have hden : (0 : ℚ) < (den : ℚ) := by exact_mod_cast h
  have h2 : (0 : Int) ≤ den * 2 := by positivity
  have hnat : (((den * 2).toNat : ℤ)) = den * 2 := Int.toNat_of_nonneg h2
  have hq : (num : ℚ) / (den : ℚ) * 100 + 1 / 2
      = ((num * 200 + den : Int) : ℚ) / (((den * 2).toNat : ℕ) : ℚ) := by
    have : (((den * 2).toNat : ℕ) : ℚ) = ((den * 2 : Int) : ℚ) := by
      exact_mod_cast congrArg (fun z : ℤ => (z : ℚ)) hnat
    rw [this]
    push_cast
    field_simp
    ring
  rw [hq, Rat.floor_intCast_div_natCast, hnat]

/-- The ratio stored and reported by the pipeline is the exact two-decimal
rounding of `(original - compressed) / original * 100` (in hundredths). -/
theorem ratioFixed2_eq_round (o c : Nat) (h : 0 < o) :
    ratioFixed2 o c = round ((((o : ℚ) - (c : ℚ)) / (o : ℚ) * 100) * 100) := by
  rw [ratioFixed2, toFixed2Of_eq_round _ _ (by exact_mod_cast h)]
  congr 1
  push_cast
  field_simp

/-- C2 (corrected): for every successful compression the response carries the
`toFixed(2)` string of the ratio — a JSON string, not a number — whose value
is exactly `round((original-compressed)/original*100, 2)`; the persisted
record stores the parsed number (here in hundredths).  Both the ratio and the
`formatFileSize(savings)` string are present in the success payload with no
constraint relating the two sizes, so a size increase (negative savings) is
reported the same way, not treated as an error. -/
theorem ratio_reported_rounded (c : Codec) (fresh : String) (rid now : Nat)
    (st : ServerState) (req : CompressRequest) (f : ImgFile) (od cd : Nat × Nat)
    (buf stored : List Nat)
    (hf : req.file = some f)
    (hd : dimsStage c req f = some (od, cd))
    (he : encodeCall c req f = some buf)
    (hw : c.fileWrite buf (extOf (resolveFormat req.format)) = some stored)
    (hsz : 0 < f.size) :
    ∃ r, (compress c fresh rid now st req).1 = CompressOutcome.ok r ∧
      r.compressionRatio = JsonVal.str (fixed2Render (ratioFixed2 f.size buf.length)) ∧
      JsonVal.isNum r.compressionRatio = false ∧
      r.savings = formatFileSize (savingsInt f.size buf.length) ∧
      ratioFixed2 f.size buf.length
        = round ((((f.size : ℚ) - (buf.length : ℚ)) / (f.size : ℚ) * 100) * 100) ∧
      (∀ uid, req.user = some uid →
        ∃ rec, (compress c fresh rid now st req).2.records = rec :: st.records ∧
          rec.compressionRatioHundredths = ratioFixed2 f.size buf.length) := by
  cases hu : req.user with
  | none =>
    refine ⟨mkResponse fresh req f od cd buf.length none,
      by simp [compress, hf, hd, he, hw, hu], rfl, rfl, rfl,
      ratioFixed2_eq_round _ _ hsz, ?_⟩
    intro uid hu2
    cases hu2
  | some uid =>
    refine ⟨mkResponse fresh req f od cd buf.length (some rid),
      by simp [compress, hf, hd, he, hw, hu], rfl, rfl, rfl,
      ratioFixed2_eq_round _ _ hsz, ?_⟩
    intro uid2 hu2
    cases hu2
    exact ⟨mkRecord rid uid now fresh req f od cd buf.length,
      by simp [compress, hf, hd, he, hw, hu], rfl⟩

/-- C2 witness: the theorem applied to the concrete run in which the encoded
output (3 bytes) is larger than the original (2 bytes). -/
theorem ratio_reported_rounded_witness :
    0 < cexFile.size ∧
    ratioFixed2 cexFile.size 3
      = round ((((cexFile.size : ℚ) - ((3 : Nat) : ℚ)) / (cexFile.size : ℚ) * 100) * 100) := by
  have h := ratio_reported_rounded cexCodec "f" 0 0 st0 reqJpg cexFile (4, 4) (4, 4)
    [0, 0, 1] [0, 0, 1, 2] rfl rfl rfl rfl (by decide)
  obtain ⟨r, -, -, -, -, hr, -⟩ := h
  exact ⟨by decide, hr⟩

/-- C2 counterexample: in the concrete success response the `compressionRatio`
field is the JSON string `"-50.00"`, not a JSON number, even though its value
is the exact rounding; the size increase (2 bytes to 3 bytes) is still a
success. -/
theorem ratio_is_string_cex :
    (compress cexCodec "f" 0 0 st0 reqJpg).1 = CompressOutcome.ok cexResp ∧
    JsonVal.isNum cexResp.compressionRatio = false ∧
    cexResp.compressionRatio = JsonVal.str "-50.00" ∧
    cexResp.originalSize < cexResp.compressedSize := by
  decide

/-! ## Claim C1: artifact persistence -/

/-- C1 (corrected): when encoding fails no artifact is written and the state
is completely unchanged (the write is the last step before persistence); on
success the artifact is stored under `uuid.ext` with the normalized extension
(`jpg` mapped to `jpeg`) and is publicly addressed by the download URL — but
the bytes persisted are the output of the second codec invocation
`sharp(compressedBuffer).toFile(outputPath)` (a re-encode of the encoded
buffer at library defaults), not necessarily the encoded bytes whose length
the response reports as `compressedSize`. -/
theorem artifact_write_last_and_named (c : Codec) (fresh : String) (rid now : Nat)
    (st : ServerState) (req : CompressRequest) (f : ImgFile) (od cd : Nat × Nat)
    (hf : req.file = some f)
    (hd : dimsStage c req f = some (od, cd)) :
    (encodeCall c req f = none → (compress c fresh rid now st req).2 = st) ∧
    (∀ buf stored, encodeCall c req f = some buf →
      c.fileWrite buf (extOf (resolveFormat req.format)) = some stored →
      (compress c fresh rid now st req).2.uploads
          = (fresh ++ "." ++ extOf (resolveFormat req.format), stored) :: st.uploads ∧
      ∃ r, (compress c fresh rid now st req).1 = CompressOutcome.ok r ∧
        r.fileName = fresh ++ "." ++ extOf (resolveFormat req.format) ∧
        r.compressedSize = buf.length ∧
        r.downloadUrl = "/uploads/" ++ (fresh ++ "." ++ extOf (resolveFormat req.format))) := by
  constructor
  · intro he
    simp [compress, hf, hd, he]
  · intro buf stored he hw
    cases hu : req.user with
    | none =>
      refine ⟨by simp [compress, hf, hd, he, hw, hu, outFileName], ?_⟩
      exact ⟨mkResponse fresh req f od cd buf.length none,
        by simp [compress, hf, hd, he, hw, hu],
        by simp [mkResponse, outFileName], rfl, by simp [mkResponse, outFileName]⟩
    | some uid =>
      refine ⟨by simp [compress, hf, hd, he, hw, hu, outFileName], ?_⟩
      exact ⟨mkResponse fresh req f od cd buf.length (some rid),
        by simp [compress, hf, hd, he, hw, hu],
        by simp [mkResponse, outFileName], rfl, by simp [mkResponse, outFileName]⟩

/-- C1 witness: the theorem at the concrete run; the artifact lands under the
normalized name with the re-encoded bytes. -/
theorem artifact_write_last_and_named_witness :
    (compress cexCodec "w1" 0 0 st0 reqJpg).2.uploads = [("w1.jpeg", [0, 0, 1, 2])] := by
  have h := (artifact_write_last_and_named cexCodec "w1" 0 0 st0 reqJpg cexFile (4, 4) (4, 4)
    rfl rfl).2 [0, 0, 1] [0, 0, 1, 2] rfl rfl
  exact h.1

/-- C1 counterexample: in the concrete run the response reports
`compressedSize = 3` (the encoded buffer), but the bytes persisted at the
artifact path are the 4-byte output of the `toFile` re-encode — the store
does not hold the encoded bytes. -/
theorem artifact_bytes_cex :
    (compress cexCodec "f" 0 0 st0 reqJpg).1 = CompressOutcome.ok cexResp ∧
    (compress cexCodec "f" 0 0 st0 reqJpg).2.uploads = [("f.jpeg", [0, 0, 1, 2])] ∧
    cexResp.compressedSize = 3 ∧
    ([0, 0, 1, 2] : List Nat).length ≠ 3 := by
  decide

/-! ## Claim C5: no upscaling in aspect-ratio-preserving mode -/

/-- A nearest-integer rescale by a factor `n/d ≤ 1` (with `d > 0`) never
exceeds the input. -/
theorem roundScaled_le (v : Nat) (n d : Int) (hnd : n ≤ d) (hd : 0 < d) :
    roundScaled v n d ≤ v := by
  rw [roundScaled]
  have h2d : (0 : Int) < d * 2 := by omega
  rw [Int.fdiv_eq_ediv _ (le_of_lt h2d)]
  have hv : (0 : Int) ≤ (v : Int) := Int.ofNat_nonneg v
  have hmul : (v : Int) * n ≤ (v : Int) * d := mul_le_mul_of_nonneg_left hnd hv
  have hlt : ((v : Int) * n * 2 + d) / (d * 2) < (v : Int) + 1 := by
    rw [Int.ediv_lt_iff_lt_mul h2d]
    nlinarith
  exact Int.toNat_le.mpr (by omega)

/-- With the enlargement guard on, the selected scale never exceeds 1. -/
theorem insideScale_le (ow oh : Nat) (wv hv : Option Int) :
    (insideScale ow oh wv hv true).1 ≤ (insideScale ow oh wv hv true).2 := by
  simp only [insideScale.eq_def]
  split_ifs with h1 h2
  all_goals first
    | exact le_rfl
    | assumption

/-- The selected scale always has a positive denominator (a source axis or 1). -/
theorem insideScale_pos (ow oh : Nat) (hw0 : 1 ≤ ow) (hh0 : 1 ≤ oh)
    (wv hv : Option Int) (b : Bool) : 0 < (insideScale ow oh wv hv b).2 := by
  cases wv <;> cases hv <;> simp [insideScale.eq_def] <;> split_ifs <;> simp <;> omega

/-- C5 (confirmed): the resize options built by the handler always carry
`withoutEnlargement: true`, and in the aspect-ratio-preserving mode
(`maintainAspectRatio` absent or `'true'`, so `fit: 'inside'`) the output
dimensions never exceed the source dimensions in either axis, whatever width
and height were requested. -/
theorem resize_no_upscale (ow oh : Nat) (hw0 : 1 ≤ ow) (hh0 : 1 ≤ oh)
    (w h m : Option String) (hm : m.getD "true" = "true")
    (cw ch : Nat) (hdims : computeDims ow oh (mkResizeOptions w h m) = some (cw, ch)) :
    (mkResizeOptions w h m).withoutEnlargement = true ∧ cw ≤ ow ∧ ch ≤ oh := by
  refine ⟨rfl, ?_⟩
  have hfit : (mkResizeOptions w h m).fit = "inside" := by simp [mkResizeOptions, hm]
  have hwe : (mkResizeOptions w h m).withoutEnlargement = true := rfl
  cases htw : targetVal (mkResizeOptions w h m).width with
  | error e => simp [computeDims, htw] at hdims
  | ok wv =>
    cases hth : targetVal (mkResizeOptions w h m).height with
    | error e => simp [computeDims, htw, hth] at hdims
    | ok hv =>
      simp only [computeDims, htw, hth, hfit, hwe, reduceIte] at hdims
      obtain ⟨hcw, hch⟩ : max 1 (roundScaled ow (insideScale ow oh wv hv true).1
            (insideScale ow oh wv hv true).2) = cw ∧
          max 1 (roundScaled oh (insideScale ow oh wv hv true).1
            (insideScale ow oh wv hv true).2) = ch := by
        injection hdims with h2
        injection h2 with hcw hch
        exact ⟨hcw, hch⟩
      subst hcw
      subst hch
      exact ⟨Nat.max_le.mpr ⟨hw0, roundScaled_le _ _ _ (insideScale_le ow oh wv hv)
          (insideScale_pos ow oh hw0 hh0 wv hv true)⟩,
        Nat.max_le.mpr ⟨hh0, roundScaled_le _ _ _ (insideScale_le ow oh wv hv)
          (insideScale_pos ow oh hw0 hh0 wv hv true)⟩⟩

theorem resize_no_upscale_witness :
    computeDims 100 100 (mkResizeOptions (some "5000") none none) = some (100, 100) ∧
    (100 : Nat) ≤ 100 ∧ (100 : Nat) ≤ 100 :=
  ⟨by decide,
   (resize_no_upscale 100 100 (by decide) (by decide) (some "5000") none none (by decide)
      100 100 (by decide)).2⟩

/-! ## Claim C6: history listing validation, defaults, pagination -/

/-- C6 (corrected): a `sortBy` outside the enumerated set always fails with
the 400 validation error; a page or limit that parses to a negative integer
fails with the 400 validation error — but a page or limit of `0` (or an
unparsable one) is turned into the default (1 resp. 10) by `parseInt(x) || d`
before the `< 1` check and therefore succeeds; absent parameters default to
`createdAt` descending, page 1, limit 10; and every success reports the
user's total record count and `pages = ceil(total/limit)` (the last conjunct
states the defining property of that ceiling). -/
theorem history_validation_pagination (st : ServerState) (uid : Nat)
    (pq lq sq oq : Option String) :
    (validSortFields.contains (resolvedSortBy sq) = false →
        listHistory st uid pq lq sq oq = Except.error (400, "Invalid sortBy field")) ∧
    (validSortFields.contains (resolvedSortBy sq) = true →
      (jsOrDefault 1 (pq.bind jsParseInt) < 1 ∨ jsOrDefault 10 (lq.bind jsParseInt) < 1) →
        listHistory st uid pq lq sq oq =
          Except.error (400, "Page and limit must be positive integers")) ∧
    (∀ r, listHistory st uid none none none none = Except.ok r →
        r.pagination.page = 1 ∧ r.pagination.limit = 10 ∧
        r.pagination.sortBy = "createdAt" ∧ r.pagination.sortOrder = "desc" ∧
        r.pagination.total = (st.records.filter (fun x => x.userId == uid)).length ∧
        r.pagination.pages = ceilPages r.pagination.total 10) ∧
    (∀ r, listHistory st uid pq lq sq oq = Except.ok r →
        r.pagination.total = (st.records.filter (fun x => x.userId == uid)).length ∧
        r.pagination.pages = ceilPages r.pagination.total r.pagination.limit ∧
        1 ≤ r.pagination.page ∧ 1 ≤ r.pagination.limit) ∧
    (∀ t : Nat, ∀ l : Int, 1 ≤ l →
        t ≤ ceilPages t l * l.toNat ∧ (0 < t → (ceilPages t l - 1) * l.toNat < t)) := by
  refine ⟨?_, ?_, ?_, ?_, ?_⟩
  · intro h
    simp only [listHistory]
    rw [if_pos (by intro hc; rw [h] at hc; exact Bool.noConfusion hc)]
  · intro h hbad
    simp only [listHistory]
    rw [if_neg (not_not_intro h), if_pos hbad]
  · intro r h
    simp only [listHistory] at h
    rw [if_neg (by decide), if_neg (by decide)] at h
    injection h with h2
    subst h2
    exact ⟨rfl, rfl, rfl, rfl, rfl, rfl⟩
  · intro r h
    simp only [listHistory] at h
    by_cases hc1 : validSortFields.contains (resolvedSortBy sq) = true
    · rw [if_neg (not_not_intro hc1)] at h
      by_cases hc2 : jsOrDefault 1 (pq.bind jsParseInt) < 1 ∨ jsOrDefault 10 (lq.bind jsParseInt) < 1
      · rw [if_pos hc2] at h
        cases h
      · rw [if_neg hc2] at h
        injection h with h2
        subst h2
        push_neg at hc2
        refine ⟨rfl, rfl, ?_, ?_⟩
        · show (1 : Int) ≤ jsOrDefault 1 (pq.bind jsParseInt)
          omega
        · show (1 : Int) ≤ jsOrDefault 10 (lq.bind jsParseInt)
          omega
    · rw [if_pos hc1] at h
      cases h
  · intro t l hl
    rw [ceilPages, if_neg (by omega)]
    have hL : 1 ≤ l.toNat := by omega
    have hstep : t + l.toNat - 1 < (t + l.toNat - 1) / l.toNat * l.toNat + l.toNat := by
      have hx := Nat.lt_mul_div_succ (t + l.toNat - 1) (show 0 < l.toNat by omega)
      rw [Nat.mul_add, Nat.mul_one, Nat.mul_comm l.toNat _] at hx
      exact hx
    have hle : (t + l.toNat - 1) / l.toNat * l.toNat ≤ t + l.toNat - 1 :=
      Nat.div_mul_le_self _ _
    have hsub : ((t + l.toNat - 1) / l.toNat - 1) * l.toNat
        = (t + l.toNat - 1) / l.toNat * l.toNat - 1 * l.toNat := Nat.sub_mul _ _ _
    rw [Nat.one_mul] at hsub
    constructor
    · omega
    · intro ht
      rw [hsub]
      omega

/-- C6 counterexample: a requested page of `"0"` — which parses to `0 < 1` —
does not fail validation: `parseInt('0') || 1` replaces it with 1 and the
listing succeeds with `page = 1`. -/
theorem history_page_zero_cex :
    listHistory st0 7 (some "0") none none none =
      Except.ok
        { history := []
          pagination :=
            { page := 1, limit := 10, total := 0, pages := 0
              sortBy := "createdAt", sortOrder := "desc" } } ∧
    jsParseInt "0" = some 0 ∧ ((0 : Int) < 1) := by
  refine ⟨by decide, by decide, by decide⟩

/-- C6 witness: an out-of-enum `sortBy` fails with the validation error, via
the theorem at a concrete input. -/
theorem history_validation_pagination_witness :
    listHistory st0 1 none none (some "zzz") none = Except.error (400, "Invalid sortBy field") :=
  (history_validation_pagination st0 1 none none (some "zzz") none).1 (by decide)

/-! ## Claim C7: record deletion scoped to the owner -/

/-- C7 (confirmed): when no record with the given id belongs to the
requesting user — in particular when the record belongs to another user —
deletion fails with 404 and the state is unchanged; when the scoped lookup
succeeds the operation succeeds, the record's artifact is absent from the
store afterwards, and the record is gone; a missing artifact file is not an
error (the success branch holds with no assumption about the uploads). -/
theorem delete_scoped_to_owner (st : ServerState) (uid rid : Nat) :
    ((∀ r, r ∈ st.records → r.recordId = rid → r.userId ≠ uid) →
        deleteRecord st uid rid = (Except.error (404, "Record not found"), st)) ∧
    (∀ record, st.records.find? (fun r => r.recordId == rid && r.userId == uid) = some record →
        (deleteRecord st uid rid).1 = Except.ok () ∧
        (∀ b, (record.compressedFilename, b) ∉ (deleteRecord st uid rid).2.uploads) ∧
        (∀ r, r ∈ (deleteRecord st uid rid).2.records → r.recordId ≠ rid)) := by
  constructor
  · intro hnone
    have hfind : st.records.find? (fun r => r.recordId == rid && r.userId == uid) = none := by
      apply List.find?_eq_none.mpr
      intro r hr
      simp only [Bool.and_eq_true, beq_iff_eq, not_and]
      exact fun h1 h2 => hnone r hr h1 h2
    simp [deleteRecord, hfind]
  · intro record hfind
    refine ⟨by simp [deleteRecord, hfind], ?_, ?_⟩
    · intro b
      by_cases hany : st.uploads.any (fun p => p.1 == record.compressedFilename) = true
      · simp only [deleteRecord, hfind, hany, if_true]
        intro hmem
        have hmf := List.mem_filter.mp hmem
        simp at hmf
      · simp only [deleteRecord, hfind, hany, if_false]
        intro hmem
        rw [Bool.not_eq_true] at hany
        have : st.uploads.any (fun p => p.1 == record.compressedFilename) = true :=
          List.any_eq_true.mpr ⟨(record.compressedFilename, b), hmem, by simp⟩
        rw [hany] at this
        cases this
    · intro r hr
      simp only [deleteRecord, hfind] at hr
      have hmf := List.mem_filter.mp hr
      simpa using hmf.2

/-- C7 witness: user 2 asking to delete user 1's record 5 gets 404 and the
state is untouched, via the theorem at a concrete state. -/
theorem delete_scoped_to_owner_witness :
    deleteRecord stW 2 5 = (Except.error (404, "Record not found"), stW) :=
  (delete_scoped_to_owner stW 2 5).1 (by decide)

/-! ## Claim C8: cleanup by filename -/

/-- C8 (corrected): the record deletion of the cleanup endpoint is scoped to
the requesting user, but the artifact deletion is not — the file is unlinked
by filename alone for any authenticated requester; the response is 404
exactly when no file with that name is on disk, independent of whether a
matching record existed (and the scoped record deletion happens in every
case). -/
theorem cleanup_file_unscoped (st : ServerState) (uid : Nat) (fn : String) :
    ((cleanupByFilename st uid fn).2.records
        = eraseFirstP (fun r => r.compressedFilename == fn && r.userId == uid) st.records) ∧
    (st.uploads.any (fun p => p.1 == fn) = true →
      (cleanupByFilename st uid fn).1 = Except.ok () ∧
      ∀ b, (fn, b) ∉ (cleanupByFilename st uid fn).2.uploads) ∧
    (st.uploads.any (fun p => p.1 == fn) = false →
      (cleanupByFilename st uid fn).1 = Except.error (404, "File not found") ∧
      (cleanupByFilename st uid fn).2.uploads = st.uploads) := by
  refine ⟨?_, ?_, ?_⟩
  · by_cases hany : st.uploads.any (fun p => p.1 == fn) = true
    · simp [cleanupByFilename, hany]
    · simp [cleanupByFilename, hany]
  · intro hany
    refine ⟨by simp [cleanupByFilename, hany], ?_⟩
    intro b
    simp only [cleanupByFilename, hany, if_true]
    intro hmem
    have hmf := List.mem_filter.mp hmem
    simp at hmf
  · intro hany
    constructor <;> simp [cleanupByFilename, hany]

/-- C8 counterexample: user 2 cleans up `a.jpeg`, which is user 1's artifact:
the call succeeds, the file is removed from the store, and user 1's record
survives — the artifact deletion is not scoped to the owning user and the
operation did not delete "the record and artifact matching the requesting
user". -/
theorem cleanup_cross_user_cex :
    cleanupByFilename stW 2 "a.jpeg" =
      (Except.ok (), { uploads := [], records := [recA], users := [] }) ∧
    recA.userId = 1 ∧ (2 : Nat) ≠ 1 := by
  refine ⟨by decide, by decide, by decide⟩

/-- C8 witness: with the file on disk the owner's cleanup succeeds, via the
theorem at a concrete state. -/
theorem cleanup_file_unscoped_witness :
    (cleanupByFilename stW 1 "a.jpeg").1 = Except.ok () :=
  ((cleanup_file_unscoped stW 1 "a.jpeg").2.1 (by decide)).1

/-! ## Claim C10: cleanup deletes the record before the existence check -/

/-- Erasing the first match from a list that contains one shortens it. -/
theorem eraseFirstP_length_lt (p : CompressionRecord → Bool) (l : List CompressionRecord)
    (h : ∃ r, r ∈ l ∧ p r = true) : (eraseFirstP p l).length < l.length := by
  induction l with
  | nil =>
    rcases h with ⟨r, hr, _⟩
    cases hr
  | cons x xs ih =>
    rw [eraseFirstP]
    by_cases hx : p x = true
    · rw [if_pos hx]
      simp
    · rw [if_neg hx]
      rcases h with ⟨r, hr, hpr⟩
      rcases List.mem_cons.mp hr with rfl | hmem
      · exact absurd hpr hx
      · simpa using Nat.succ_lt_succ (ih ⟨r, hmem, hpr⟩)

/-- C10 (confirmed): when a record matching the filename and the requesting
user exists but the file is not on disk, the cleanup endpoint responds 404 —
yet the record has already been deleted by the unconditional
`findOneAndDelete` that runs before the existence check, so the 404 does not
mean the persistent state is unchanged. -/
theorem cleanup_notfound_still_deletes (st : ServerState) (uid : Nat) (fn : String)
    (rec : CompressionRecord) (hrec : rec ∈ st.records)
    (hfn : rec.compressedFilename = fn) (huid : rec.userId = uid)
    (hnofile : st.uploads.any (fun p => p.1 == fn) = false) :
    (cleanupByFilename st uid fn).1 = Except.error (404, "File not found") ∧
    (cleanupByFilename st uid fn).2.records.length < st.records.length := by
  constructor
  · simp [cleanupByFilename, hnofile]
  · have hrecords : (cleanupByFilename st uid fn).2.records
        = eraseFirstP (fun r => r.compressedFilename == fn && r.userId == uid) st.records := by
      simp [cleanupByFilename, hnofile]
    rw [hrecords]
    exact eraseFirstP_length_lt _ _ ⟨rec, hrec, by simp [hfn, huid]⟩

/-- C10 witness: the theorem at a concrete state — user 1's record for
`a.jpeg` exists, no such file is on disk, the response is 404 and the record
count drops. -/
theorem cleanup_notfound_still_deletes_witness :
    (cleanupByFilename stNoFile 1 "a.jpeg").1 = Except.error (404, "File not found") ∧
    (cleanupByFilename stNoFile 1 "a.jpeg").2.records.length < stNoFile.records.length :=
  cleanup_notfound_still_deletes stNoFile 1 "a.jpeg" recA (by decide) (by decide) rfl (by decide)

/-! ## Claim C9: persistence happens exactly for authenticated requests -/

/-- A state with one user whose counters are populated. -/
def stU : ServerState :=
  { uploads := [], records := []
    users := [(1, { totalCompressions := 2, totalSizeSaved := 5, lastCompression := none })] }

/-- C9 (confirmed): a compression request with no identity attached leaves
the records and every user's counters unchanged on every path (only the
artifact store changes on success); with an identity attached, the success
path prepends a record owned by that user, rewrites the user table by the
`$inc`/`$set` update — incrementing `totalCompressions` by one, adding the
(possibly negative) savings to `totalSizeSaved` and setting
`lastCompression` — leaves every other user untouched, and reports the new
record's id in the response. -/
theorem persistence_iff_identity (c : Codec) (fresh : String) (rid now : Nat)
    (st : ServerState) (req : CompressRequest) :
    (req.user = none →
      (compress c fresh rid now st req).2.records = st.records ∧
      (compress c fresh rid now st req).2.users = st.users) ∧
    (∀ uid f od cd buf stored, req.user = some uid → req.file = some f →
      dimsStage c req f = some (od, cd) → encodeCall c req f = some buf →
      c.fileWrite buf (extOf (resolveFormat req.format)) = some stored →
      (compress c fresh rid now st req).2.records
          = mkRecord rid uid now fresh req f od cd buf.length :: st.records ∧
      (mkRecord rid uid now fresh req f od cd buf.length).userId = uid ∧
      (compress c fresh rid now st req).2.users
          = applyUserInc uid (savingsInt f.size buf.length) now st.users ∧
      (∀ p, p ∈ st.users → p.1 ≠ uid →
          p ∈ (compress c fresh rid now st req).2.users) ∧
      (∀ s0 : UserStats, (uid, s0) ∈ st.users →
          (uid, { totalCompressions := s0.totalCompressions + 1
                  totalSizeSaved := s0.totalSizeSaved + savingsInt f.size buf.length
                  lastCompression := some now }) ∈ (compress c fresh rid now st req).2.users) ∧
      (∃ r, (compress c fresh rid now st req).1 = CompressOutcome.ok r ∧
          r.recordId = some rid)) := by
  constructor
  · intro hu
    cases hf : req.file with
    | none => simp [compress, hf]
    | some f =>
      cases hd : dimsStage c req f with
      | none => simp [compress, hf, hd]
      | some dc =>
        obtain ⟨od, cd⟩ := dc
        cases he : encodeCall c req f with
        | none => simp [compress, hf, hd, he]
        | some buf =>
          cases hw : c.fileWrite buf (extOf (resolveFormat req.format)) with
          | none => simp [compress, hf, hd, he, hw]
          | some stored => simp [compress, hf, hd, he, hw, hu]
  · intro uid f od cd buf stored hu hf hd he hw
    have husers : (compress c fresh rid now st req).2.users
        = applyUserInc uid (savingsInt f.size buf.length) now st.users := by
      simp [compress, hf, hd, he, hw, hu]
    refine ⟨by simp [compress, hf, hd, he, hw, hu], rfl, husers, ?_, ?_, ?_⟩
    · intro p hp hne
      rw [husers, applyUserInc]
      have hmm := List.mem_map_of_mem (fun q : Nat × UserStats =>
        if q.1 = uid then
          (q.1, { totalCompressions := q.2.totalCompressions + 1
                  totalSizeSaved := q.2.totalSizeSaved + savingsInt f.size buf.length
                  lastCompression := some now })
        else q) hp
      simpa [if_neg hne] using hmm
    · intro s0 hs0
      rw [husers, applyUserInc]
      have hmm := List.mem_map_of_mem (fun q : Nat × UserStats =>
        if q.1 = uid then
          (q.1, { totalCompressions := q.2.totalCompressions + 1
                  totalSizeSaved := q.2.totalSizeSaved + savingsInt f.size buf.length
                  lastCompression := some now })
        else q) hs0
      simpa using hmm
    · exact ⟨mkResponse fresh req f od cd buf.length (some rid),
        by simp [compress, hf, hd, he, hw, hu], rfl⟩

/-- C9 witness: the theorem at concrete runs — the authenticated request
creates the record and updates user 1's counters; the anonymous request
leaves records and users unchanged. -/
theorem persistence_iff_identity_witness :
    ((compress cexCodec "w9" 7 3 stU reqJpgAuth).2.records
        = mkRecord 7 1 3 "w9" reqJpgAuth cexFile (4, 4) (4, 4) 3 :: stU.records ∧
      (compress cexCodec "w9" 7 3 stU reqJpgAuth).2.users
        = applyUserInc 1 (savingsInt cexFile.size 3) 3 stU.users) ∧
    ((compress cexCodec "w9" 7 3 stU reqJpg).2.records = stU.records ∧
      (compress cexCodec "w9" 7 3 stU reqJpg).2.users = stU.users) := by
  have h2 := (persistence_iff_identity cexCodec "w9" 7 3 stU reqJpgAuth).2
    1 cexFile (4, 4) (4, 4) [0, 0, 1] [0, 0, 1, 2] rfl rfl rfl rfl rfl
  have h1 := (persistence_iff_identity cexCodec "w9" 7 3 stU reqJpg).1 rfl
  exact ⟨⟨h2.1, h2.2.2.1⟩, h1⟩
